import Mathlib

/-!
Verification development for the SecureX repository.

The repository glues an external cryptographic library (tweetnacl: X25519 key
agreement via nacl.box.before, authenticated symmetric encryption via
nacl.secretbox, base64 codecs, UTF-8 codecs) into a character-by-character
encryption visualization.  The external primitives are treated as a trusted
black box, exactly as the specification prescribes; they are modelled here by
the structure CryptoEnv whose proof fields state precisely the external
contract of the spec (round trips, fail-closed authenticated decryption,
commutativity of the Diffie-Hellman exchange, 32-byte shared value).  All code
authored in the repository itself (src/src/utils/x25519-cipher.ts and the
playback engine of src/src/pages/Visualization.tsx, second revision, lines
760-1944) is translated definition by definition below.

Strings crossing the JavaScript boundary are modelled as lists of UTF-16 code
units (List Nat); byte arrays as lists of bytes (List Nat).  Randomness
(nacl.randomBytes, nacl.box.keyPair) is made explicit as seed arguments.
-/

/-- Visualization stage tags, from the union type of VisualizationStep.stage
in src/src/pages/Visualization.tsx line 797. -/
inductive Stage where
  | original
  | numeric
  | xorOperation
  | nonceCombine
  | encrypted
deriving DecidableEq, Inhabited

/-- Display record, from interface VisualizationStep in
src/src/pages/Visualization.tsx lines 792-805.  The char field holds the
single UTF-16 code unit of the character; stage labels are kept as Lean
strings. -/
structure VStep where
  charIndex : Nat
  char : Nat
  charCode : Nat
  encrypted : List Nat
  stage : Stage
  stageLabel : String
  charBytes : List Nat
  sharedSecretHex : List Nat
  keystreamHex : List Nat
  ciphertextBytes : List Nat
  plaintextByte : Nat
  keystreamByte : Nat
deriving DecidableEq, Inhabited

/-- The external primitive layer (tweetnacl, tweetnacl-util, TextEncoder,
TextDecoder, atob).  Function fields model the library calls; proof fields
state the external contract from section 6 of the spec: base64 and UTF-8
round trips, nacl.secretbox round trip, fail-closed authenticated opening
(a ciphertext opens only if it is exactly the encryption of the returned
message under that nonce and key), the Diffie-Hellman commutativity of
nacl.box.before over generated key pairs, and the 32-byte shared value. -/
structure CryptoEnv where
  utf8Encode : List Nat → List Nat
  utf8Decode : List Nat → List Nat
  b64Encode : List Nat → List Nat
  b64DecodeOpt : List Nat → Option (List Nat)
  secretbox : List Nat → List Nat → List Nat → List Nat
  secretboxOpen : List Nat → List Nat → List Nat → Option (List Nat)
  boxBefore : List Nat → List Nat → List Nat
  keyPairBytes : Nat → List Nat × List Nat
  randomNonce : Nat → List Nat
  utf8_rt : ∀ s, utf8Decode (utf8Encode s) = s
  b64_rt : ∀ bs, b64DecodeOpt (b64Encode bs) = some bs
  secretbox_rt : ∀ m n k, secretboxOpen (secretbox m n k) n k = some m
  secretboxOpen_auth : ∀ c n k m, secretboxOpen c n k = some m → c = secretbox m n k
  boxBefore_comm : ∀ s t,
    boxBefore (keyPairBytes t).1 (keyPairBytes s).2
      = boxBefore (keyPairBytes s).1 (keyPairBytes t).2
  boxBefore_len : ∀ pub priv, (boxBefore pub priv).length = 32

/-- KeyPair from src/src/utils/x25519-cipher.ts lines 7-10: both keys are
base64 text. -/
structure KeyPair where
  publicKey : List Nat
  privateKey : List Nat
deriving DecidableEq

/-- generateKeyPair from src/src/utils/x25519-cipher.ts lines 13-19.
nacl.box.keyPair() is random; the seed argument makes that explicit. -/
def generateKeyPair (env : CryptoEnv) (seed : Nat) : KeyPair :=
  let keyPair := env.keyPairBytes seed
  { publicKey := env.b64Encode keyPair.1
    privateKey := env.b64Encode keyPair.2 }

/-- deriveSharedSecret from src/src/utils/x25519-cipher.ts lines 22-32.
decodeBase64 throws on malformed input, modelled by the none case. -/
def deriveSharedSecret (env : CryptoEnv) (myPrivateKey theirPublicKey : List Nat) :
    Option (List Nat) :=
  match env.b64DecodeOpt myPrivateKey, env.b64DecodeOpt theirPublicKey with
  | some privateKey, some publicKey => some (env.boxBefore publicKey privateKey)
  | _, _ => none

/-- encryptMessage from src/src/utils/x25519-cipher.ts lines 35-49.  Returns
the pair (ciphertext, nonce), both base64.  nacl.randomBytes is random; the
entropy argument makes that explicit. -/
def encryptMessage (env : CryptoEnv) (message : List Nat) (sharedSecret : List Nat)
    (entropy : Nat) : List Nat × List Nat :=
  let messageBytes := env.utf8Encode message
  let nonce := env.randomNonce entropy
  let encrypted := env.secretbox messageBytes nonce sharedSecret
  (env.b64Encode encrypted, env.b64Encode nonce)

/-- Failure modes of decryptMessage: the explicit throw on failed
authentication (x25519-cipher.ts line 63), and the throw inside decodeBase64
on malformed base64 input. -/
inductive DecryptError where
  | invalidBase64
  | authenticationFailed
deriving DecidableEq

/-- decryptMessage from src/src/utils/x25519-cipher.ts lines 52-67.  When
nacl.secretbox.open returns null the source throws; that throw is the
authenticationFailed error. -/
def decryptMessage (env : CryptoEnv) (ciphertext nonce : List Nat)
    (sharedSecret : List Nat) : Except DecryptError (List Nat) :=
  match env.b64DecodeOpt ciphertext, env.b64DecodeOpt nonce with
  | some ciphertextBytes, some nonceBytes =>
    match env.secretboxOpen ciphertextBytes nonceBytes sharedSecret with
    | some decrypted => Except.ok (env.utf8Decode decrypted)
    | none => Except.error DecryptError.authenticationFailed
  | _, _ => Except.error DecryptError.invalidBase64

/-- isValidKey from src/src/utils/x25519-cipher.ts lines 70-77. -/
def isValidKey (env : CryptoEnv) (key : List Nat) : Bool :=
  match env.b64DecodeOpt key with
  | some decoded => decoded.length == 32
  | none => false

/-- base64ToBytes from src/src/pages/Visualization.tsx lines 981-988: atob
with a catch returning the empty array. -/
def base64ToBytes (env : CryptoEnv) (b64 : List Nat) : List Nat :=
  match env.b64DecodeOpt b64 with
  | some bytes => bytes
  | none => []

/-- Code of the hex digit d (source: Number.prototype.toString(16)). -/
def hexDigitCode (d : Nat) : Nat :=
  if d < 10 then 48 + d else 87 + d

/-- Hex rendering of one byte, two digits (toString(16).padStart(2, "0")). -/
def byteToHexCodes (b : Nat) : List Nat :=
  [hexDigitCode (b / 16 % 16), hexDigitCode (b % 16)]

/-- bytesToHex from src/src/pages/Visualization.tsx lines 990-991. -/
def bytesToHex (bytes : List Nat) : List Nat :=
  bytes.flatMap byteToHexCodes

/-- xorBytes from src/src/pages/Visualization.tsx lines 993-996: index i of
the result is (a[i] or 0) xor (b[i] or 0), out-of-range reads giving 0. -/
def xorBytes (a b : List Nat) : List Nat :=
  (List.range (max a.length b.length)).map (fun i => a.getD i 0 ^^^ b.getD i 0)

/-- Code units of the three-dot suffix appended to ciphertext previews. -/
def dots : List Nat := [46, 46, 46]

/-- stagesOrder from src/src/pages/Visualization.tsx lines 815-821. -/
def stagesOrder : List Stage :=
  [Stage.original, Stage.numeric, Stage.xorOperation, Stage.nonceCombine, Stage.encrypted]

/-- stageLabelMap from updateCurrentStepFromManual,
src/src/pages/Visualization.tsx lines 1055-1061. -/
def stageLabelMap : Stage → String
  | Stage.original => "Original Character"
  | Stage.numeric => "Numeric Mapping (bytes)"
  | Stage.xorOperation => "XOR Operation (bit-by-bit)"
  | Stage.nonceCombine => "Nonce Combination"
  | Stage.encrypted => "Final Encrypted Value"

/-- The stages list of the auto encryption driver,
src/src/pages/Visualization.tsx lines 1162-1168. -/
def autoStages : List (Stage × String) :=
  [(Stage.original, "Original Character"),
   (Stage.numeric, "Numeric Mapping (bytes)"),
   (Stage.xorOperation, "XOR Operation (bit-by-bit)"),
   (Stage.nonceCombine, "Nonce Combination"),
   (Stage.encrypted, "Final Encrypted Value")]

/-- The display record built inline by the auto encryption driver for one
stage of one character, src/src/pages/Visualization.tsx lines 1151-1186
(per-character data) and 1173-1186 (the setCurrentStep argument).  char is
the code unit at index i of the input text; entropy seeds the fresh random
nonce of the per-character preview encryption. -/
def autoStepRecord (env : CryptoEnv) (sharedSecret : List Nat) (i : Nat) (char : Nat)
    (entropy : Nat) (stage : Stage) (stageLabel : String) : VStep :=
  let charCode := char
  let charBytesArr := env.utf8Encode [char]
  let ciphertext := (encryptMessage env [char] sharedSecret entropy).1
  let cipherBytes := base64ToBytes env ciphertext
  let keystreamBytes := xorBytes cipherBytes charBytesArr
  let encryptedPreview := ciphertext.take 16 ++ dots
  { charIndex := i
    char := char
    charCode := charCode
    encrypted := encryptedPreview
    stage := stage
    stageLabel := stageLabel
    charBytes := charBytesArr
    sharedSecretHex := (bytesToHex sharedSecret).take 32
    keystreamHex := (bytesToHex keystreamBytes).take 32
    ciphertextBytes := cipherBytes
    plaintextByte := charBytesArr.getD 0 0
    keystreamByte := keystreamBytes.getD 0 0 }

/-- The completed-character record appended by the auto encryption driver,
src/src/pages/Visualization.tsx lines 1199-1215. -/
def autoCompletedRecord (env : CryptoEnv) (sharedSecret : List Nat) (i : Nat)
    (char : Nat) (entropy : Nat) : VStep :=
  let charCode := char
  let charBytesArr := env.utf8Encode [char]
  let ciphertext := (encryptMessage env [char] sharedSecret entropy).1
  let cipherBytes := base64ToBytes env ciphertext
  let keystreamBytes := xorBytes cipherBytes charBytesArr
  let encryptedPreview := ciphertext.take 16 ++ dots
  { charIndex := i
    char := char
    charCode := charCode
    encrypted := encryptedPreview
    stage := Stage.encrypted
    stageLabel := "Completed"
    charBytes := charBytesArr
    sharedSecretHex := (bytesToHex sharedSecret).take 32
    keystreamHex := (bytesToHex keystreamBytes).take 32
    ciphertextBytes := cipherBytes
    plaintextByte := charBytesArr.getD 0 0
    keystreamByte := keystreamBytes.getD 0 0 }

/-- The preview record built per character by prepareManualEncryption,
src/src/pages/Visualization.tsx lines 1021-1042. -/
def manualPreviewRecord (env : CryptoEnv) (sharedSecret : List Nat) (i : Nat)
    (char : Nat) (entropy : Nat) : VStep :=
  let charBytesArr := env.utf8Encode [char]
  let ciphertext := (encryptMessage env [char] sharedSecret entropy).1
  let cipherBytes := base64ToBytes env ciphertext
  let keystreamBytes := xorBytes cipherBytes charBytesArr
  { charIndex := i
    char := char
    charCode := char
    encrypted := ciphertext.take 16 ++ dots
    stage := Stage.original
    stageLabel := "Prepared"
    charBytes := charBytesArr
    sharedSecretHex := (bytesToHex sharedSecret).take 32
    keystreamHex := (bytesToHex keystreamBytes).take 32
    ciphertextBytes := cipherBytes
    plaintextByte := charBytesArr.getD 0 0
    keystreamByte := keystreamBytes.getD 0 0 }

/-- The component state touched by the manual stepper: the useState cells
manualPrepared, manualPreviews, manualCharIndex, manualStageIndex,
currentStep, completedSteps, showXorAnimation, showNonceCombine of
src/src/pages/Visualization.tsx lines 825-859. -/
structure MState where
  manualPrepared : Bool
  manualPreviews : List VStep
  manualCharIndex : Nat
  manualStageIndex : Nat
  currentStep : Option VStep
  completedSteps : List VStep
  showXorAnimation : Bool
  showNonceCombine : Bool
deriving DecidableEq

/-- updateCurrentStepFromManual from src/src/pages/Visualization.tsx lines
1051-1065: overwrite the stage and stage label of the prepared preview at
charIndex and publish it as the current step.  All call sites pass an
in-range stageIndex, so the getD defaults are never hit there. -/
def updateCurrentStepFromManual (ms : MState) (charIndex stageIndex : Nat) : MState :=
  if ms.manualPreviews.length = 0 then ms
  else
    let preview := ms.manualPreviews.getD charIndex default
    let stage := stagesOrder.getD stageIndex Stage.original
    { ms with
      currentStep := some { preview with stage := stage, stageLabel := stageLabelMap stage }
      showXorAnimation := decide (stage = Stage.xorOperation)
      showNonceCombine := decide (stage = Stage.nonceCombine) }

/-- The shared tail of the two advancing branches of manualStepForward,
src/src/pages/Visualization.tsx lines 1079-1087: commit the new position,
refresh the current step, and on reaching the encrypted stage append the
completed snapshot unless an entry with the same charIndex is already
present. -/
def manualForwardTo (ms : MState) (cIdx sIdx : Nat) : MState :=
  let ms1 := { ms with manualStageIndex := sIdx, manualCharIndex := cIdx }
  let ms2 := updateCurrentStepFromManual ms1 cIdx sIdx
  if stagesOrder.getD sIdx Stage.original = Stage.encrypted then
    if ms2.completedSteps.any
        (fun p => p.charIndex == (ms.manualPreviews.getD cIdx default).charIndex) then
      ms2
    else
      { ms2 with completedSteps := ms2.completedSteps ++
          [{ ms.manualPreviews.getD cIdx default with
               stage := Stage.encrypted, stageLabel := "Completed" }] }
  else ms2

/-- manualStepForward from src/src/pages/Visualization.tsx lines 1067-1088. -/
def manualStepForward (ms : MState) : MState :=
  if ms.manualPrepared = false ∨ ms.manualPreviews.length = 0 then ms
  else if ms.manualStageIndex < stagesOrder.length - 1 then
    manualForwardTo ms ms.manualCharIndex (ms.manualStageIndex + 1)
  else if ms.manualCharIndex < ms.manualPreviews.length - 1 then
    manualForwardTo ms (ms.manualCharIndex + 1) 0
  else ms

/-- manualStepBack from src/src/pages/Visualization.tsx lines 1090-1105. -/
def manualStepBack (ms : MState) : MState :=
  if ms.manualPrepared = false ∨ ms.manualPreviews.length = 0 then ms
  else if 0 < ms.manualStageIndex then
    let ms1 := { ms with manualStageIndex := ms.manualStageIndex - 1 }
    updateCurrentStepFromManual ms1 ms1.manualCharIndex ms1.manualStageIndex
  else if 0 < ms.manualCharIndex then
    let ms1 := { ms with manualCharIndex := ms.manualCharIndex - 1,
                         manualStageIndex := stagesOrder.length - 1 }
    updateCurrentStepFromManual ms1 ms1.manualCharIndex ms1.manualStageIndex
  else ms

/-- The pure position transition of manualStepForward: within a character
the stage index advances, at the last stage the character index advances
with stage reset to 0, and at the very end nothing moves. -/
def posStep (len : Nat) (p : Nat × Nat) : Nat × Nat :=
  if p.2 < stagesOrder.length - 1 then (p.1, p.2 + 1)
  else if p.1 < len - 1 then (p.1 + 1, 0)
  else p

/-- The shared display state written by the auto drivers and read by the
rendering layer: the useState cells and the generation counter runIdRef of
src/src/pages/Visualization.tsx lines 824-844. -/
structure GlobalState where
  runId : Nat
  isPlaying : Bool
  currentStep : Option VStep
  completedSteps : List VStep
  finalEncryptedText : List Nat
  decryptedText : List Nat
  showXorAnimation : Bool
  showNonceCombine : Bool
deriving DecidableEq

/-- The values captured by one auto encryption run of visualizeEncryption
(src/src/pages/Visualization.tsx lines 1121-1227): the generation myRunId
captured at start, the input text, the derived shared secret, the full
ciphertext, and the entropy stream feeding the per-character preview
encryptions. -/
structure EncRunCtx where
  myRunId : Nat
  inputText : List Nat
  sharedSecret : List Nat
  fullCiphertext : List Nat
  entropy : Nat → Nat

/-- One scheduled resumption of the cooperative auto encryption loop of
visualizeEncryption, src/src/pages/Visualization.tsx lines 1151-1226.  The
position (i, j) with j < 5 resumes at the top of the stage loop body for
stage j of character i (guard at line 1171, setCurrentStep at 1173, then
await); j = 5 resumes after the last stage wait, at the guard of line 1196,
appending the completed record (lines 1199-1215) and then awaiting; i past
the end of the text resumes at the exit of the outer loop, where the final
guard (line 1222) protects setFinalEncryptedText and setIsPlaying(false)
runs unconditionally (line 1226).  The returned Option is the position of
the next scheduled resumption, none when the run terminated. -/
def encResume (env : CryptoEnv) (ctx : EncRunCtx) (pos : Nat × Nat)
    (g : GlobalState) : GlobalState × Option (Nat × Nat) :=
  if ctx.inputText.length ≤ pos.1 then
    (if g.runId = ctx.myRunId then
       { g with finalEncryptedText := ctx.fullCiphertext, isPlaying := false }
     else { g with isPlaying := false }, none)
  else if g.runId = ctx.myRunId then
    if pos.2 < 5 then
      let sl := autoStages.getD pos.2 (Stage.original, "Original Character")
      ({ g with
           currentStep := some (autoStepRecord env ctx.sharedSecret pos.1
             (ctx.inputText.getD pos.1 0) (ctx.entropy pos.1) sl.1 sl.2)
           showXorAnimation := decide (sl.1 = Stage.xorOperation)
           showNonceCombine := decide (sl.1 = Stage.nonceCombine) },
       some (pos.1, pos.2 + 1))
    else
      ({ g with
           completedSteps := g.completedSteps ++
             [autoCompletedRecord env ctx.sharedSecret pos.1
               (ctx.inputText.getD pos.1 0) (ctx.entropy pos.1)]
           currentStep := none
           showXorAnimation := false
           showNonceCombine := false },
       some (pos.1 + 1, 0))
  else ({ g with isPlaying := false }, none)

/-- stopVisualization from src/src/pages/Visualization.tsx lines 1337-1344:
increment the generation counter, stop playback, clear the pending timer and
the transient display flags. -/
def stopVisualization (g : GlobalState) : GlobalState :=
  { g with runId := g.runId + 1
           isPlaying := false
           currentStep := none
           showXorAnimation := false
           showNonceCombine := false }

/-- The stages list of the decryption driver, src/src/pages/Visualization.tsx
lines 1265-1271. -/
def decStages : List (Stage × String) :=
  [(Stage.encrypted, "Encrypted Value"),
   (Stage.nonceCombine, "Extract from Nonce"),
   (Stage.xorOperation, "XOR Operation (bit-by-bit)"),
   (Stage.numeric, "Numeric Mapping (bytes)"),
   (Stage.original, "Original Character Recovered")]

/-- The display record built by visualizeDecryption for one stage of one
recovered character, src/src/pages/Visualization.tsx lines 1255-1289: the
recovered character is freshly re-encrypted with encryptMessage (fresh
random nonce from the entropy stream) to populate the preview fields. -/
def decStepRecord (env : CryptoEnv) (sharedSecret : List Nat) (i : Nat) (char : Nat)
    (entropy : Nat) (stage : Stage) (stageLabel : String) : VStep :=
  let charCode := char
  let ciphertext := (encryptMessage env [char] sharedSecret entropy).1
  let cipherBytes := base64ToBytes env ciphertext
  let charBytesArr := env.utf8Encode [char]
  let keystreamBytes := xorBytes cipherBytes charBytesArr
  let encryptedPreview := ciphertext.take 16 ++ dots
  { charIndex := i
    char := char
    charCode := charCode
    encrypted := encryptedPreview
    stage := stage
    stageLabel := stageLabel
    charBytes := charBytesArr
    sharedSecretHex := (bytesToHex sharedSecret).take 32
    keystreamHex := (bytesToHex keystreamBytes).take 32
    ciphertextBytes := cipherBytes
    plaintextByte := charBytesArr.getD 0 0
    keystreamByte := keystreamBytes.getD 0 0 }

/-- The shared-secret selection of visualizeDecryption,
src/src/pages/Visualization.tsx lines 1242-1250: reuse the stored keys when
both are non-empty strings (JavaScript truthiness), otherwise derive from
two freshly generated key pairs. -/
def visualizeDecryptionSecret (env : CryptoEnv)
    (alicePrivateKey bobPublicKey : List Nat) (seedA seedB : Nat) :
    Option (List Nat) :=
  if alicePrivateKey ≠ [] ∧ bobPublicKey ≠ [] then
    deriveSharedSecret env alicePrivateKey bobPublicKey
  else
    let a := generateKeyPair env seedA
    let b := generateKeyPair env seedB
    deriveSharedSecret env a.privateKey b.publicKey

/-- The data pipeline of visualizeDecryption, src/src/pages/Visualization.tsx
lines 1229-1335: select the shared secret, decrypt the user-supplied
envelope, and lay out the per-character per-stage display records in order.
The first component is the secret actually used (none when key decoding
fails); the second is the decryption outcome with the recovered text and
the records. -/
def visualizeDecryptionRun (env : CryptoEnv) (encryptedInput nonceInput : List Nat)
    (alicePrivateKey bobPublicKey : List Nat) (seedA seedB : Nat)
    (entropy : Nat → Nat) :
    Option (List Nat) × Except DecryptError (List Nat × List VStep) :=
  match visualizeDecryptionSecret env alicePrivateKey bobPublicKey seedA seedB with
  | none => (none, Except.error DecryptError.invalidBase64)
  | some sharedSecret =>
    match decryptMessage env encryptedInput nonceInput sharedSecret with
    | Except.error e => (some sharedSecret, Except.error e)
    | Except.ok fullDecryptedText =>
      (some sharedSecret, Except.ok (fullDecryptedText,
        (List.range fullDecryptedText.length).flatMap (fun i =>
          decStages.map (fun sl => decStepRecord env sharedSecret i
            (fullDecryptedText.getD i 0) (entropy i) sl.1 sl.2))))

/-- Whether a decryption run succeeded. -/
def runOk (r : Option (List Nat) × Except DecryptError (List Nat × List VStep)) : Bool :=
  match r.2 with
  | Except.ok _ => true
  | Except.error _ => false

/-- The recovered text of a decryption run (empty on failure). -/
def runText (r : Option (List Nat) × Except DecryptError (List Nat × List VStep)) :
    List Nat :=
  match r.2 with
  | Except.ok t => t.1
  | Except.error _ => []

/-- The display records of a decryption run (empty on failure). -/
def runRecords (r : Option (List Nat) × Except DecryptError (List Nat × List VStep)) :
    List VStep :=
  match r.2 with
  | Except.ok t => t.2
  | Except.error _ => []

/-- Keystream mixing byte of the toy secretbox below. -/
def toyMix (n k : List Nat) : Nat := (n.sum + k.sum) % 256

/-- Toy authenticated box used to instantiate the external contract for
concrete evaluation: a checksum tag followed by the xor-masked message. -/
def toySecretbox (m n k : List Nat) : List Nat :=
  ((m.sum + m.length + n.sum + k.sum) % 256) :: m.map (fun b => b ^^^ toyMix n k)

/-- Opening for the toy box: unmask, then verify the checksum tag. -/
def toySecretboxOpen (c n k : List Nat) : Option (List Nat) :=
  match c with
  | [] => none
  | t :: body =>
    let m := body.map (fun b => b ^^^ toyMix n k)
    if t = (m.sum + m.length + n.sum + k.sum) % 256 then some m else none

lemma toy_xor_mask_cancel (x : Nat) :
    ∀ l : List Nat, l.map ((fun b => b ^^^ x) ∘ fun b => b ^^^ x) = l := by
  intro l
  induction l with
  | nil => rfl
  | cons a l ih => simp [ih, Nat.xor_assoc, Function.comp]

lemma toySecretbox_rt (m n k : List Nat) :
    toySecretboxOpen (toySecretbox m n k) n k = some m := by
  simp [toySecretbox, toySecretboxOpen, List.map_map, toy_xor_mask_cancel]

lemma toySecretboxOpen_auth (c n k m : List Nat)
    (h : toySecretboxOpen c n k = some m) : c = toySecretbox m n k := by
  match c with
  | [] => simp [toySecretboxOpen] at h
  | t :: body =>
    simp only [toySecretboxOpen] at h
    by_cases ht : t = ((body.map (fun b => b ^^^ toyMix n k)).sum
        + (body.map (fun b => b ^^^ toyMix n k)).length + n.sum + k.sum) % 256
    · rw [if_pos ht] at h
      obtain rfl : body.map (fun b => b ^^^ toyMix n k) = m := by
        exact Option.some.inj h
      simp [toySecretbox, List.map_map, toy_xor_mask_cancel, ht]
    · rw [if_neg ht] at h
      exact absurd h (by simp)

/-- Toy Diffie-Hellman pair: the public value is 3 to the private scalar in
the multiplicative group mod 251. -/
def toyKeyPairBytes (s : Nat) : List Nat × List Nat := ([3 ^ s % 251], [s])

/-- Toy shared-value derivation, padded to 32 bytes. -/
def toyBoxBefore (pub priv : List Nat) : List Nat :=
  List.replicate 31 0 ++ [pub.headD 0 ^ priv.headD 0 % 251]

lemma toyBoxBefore_comm (s t : Nat) :
    toyBoxBefore (toyKeyPairBytes t).1 (toyKeyPairBytes s).2
      = toyBoxBefore (toyKeyPairBytes s).1 (toyKeyPairBytes t).2 := by
  simp only [toyBoxBefore, toyKeyPairBytes, List.headD]
  have h1 : (3 ^ t % 251) ^ s % 251 = (3 ^ s % 251) ^ t % 251 := by
    rw [← Nat.pow_mod, ← Nat.pow_mod, ← pow_mul, ← pow_mul, Nat.mul_comm]
  rw [h1]

/-- A concrete instantiation of the external contract, used to evaluate the
repository functions on concrete inputs. -/
def toyEnv : CryptoEnv where
  utf8Encode := fun s => s
  utf8Decode := fun s => s
  b64Encode := fun bs => bs.map (fun b => b + 1)
  b64DecodeOpt := fun l =>
    if l.all (fun c => decide (1 ≤ c)) then some (l.map (fun c => c - 1)) else none
  secretbox := toySecretbox
  secretboxOpen := toySecretboxOpen
  boxBefore := toyBoxBefore
  keyPairBytes := toyKeyPairBytes
  randomNonce := fun s => [s % 256]
  utf8_rt := fun _ => rfl
  b64_rt := by
    intro bs
    induction bs with
    | nil => rfl
    | cons a l ih =>
      simp only [List.map_cons, List.all_cons] at *
      simp_all
  secretbox_rt := toySecretbox_rt
  secretboxOpen_auth := toySecretboxOpen_auth
  boxBefore_comm := toyBoxBefore_comm
  boxBefore_len := by intro pub priv; simp [toyBoxBefore]

/-- C1: Round-trip — for every input text T and every valid 32-byte shared
secret S, decrypting the envelope produced by encryptMessage(T, S), that is
calling decryptMessage(ciphertext, nonce, S) on its ciphertext and nonce,
returns exactly T. -/
theorem c1_encrypt_decrypt_roundtrip (env : CryptoEnv) (message sharedSecret : List Nat)
    (entropy : Nat) (hlen : sharedSecret.length = 32) :
    decryptMessage env (encryptMessage env message sharedSecret entropy).1
      (encryptMessage env message sharedSecret entropy).2 sharedSecret
      = Except.ok message := by
  simp [encryptMessage, decryptMessage, env.b64_rt, env.secretbox_rt, env.utf8_rt]

/-- Witness for C1 at a concrete two-character message and a concrete
32-byte secret in the toy environment. -/
theorem c1_encrypt_decrypt_roundtrip_witness :
    (List.replicate 32 7 : List Nat).length = 32 ∧
    decryptMessage toyEnv
      (encryptMessage toyEnv [72, 105] (List.replicate 32 7) 5).1
      (encryptMessage toyEnv [72, 105] (List.replicate 32 7) 5).2
      (List.replicate 32 7) = Except.ok [72, 105] :=
  ⟨by decide,
   c1_encrypt_decrypt_roundtrip toyEnv [72, 105] (List.replicate 32 7) 5 (by decide)⟩

/-- C2: Commutativity of the key exchange — for every pair of key pairs A
and B produced by generateKeyPair, deriveSharedSecret(A.privateKey,
B.publicKey) yields the same 32-byte value as
deriveSharedSecret(B.privateKey, A.publicKey). -/
theorem c2_shared_secret_commutes (env : CryptoEnv) (seedA seedB : Nat) :
    deriveSharedSecret env (generateKeyPair env seedA).privateKey
        (generateKeyPair env seedB).publicKey
      = deriveSharedSecret env (generateKeyPair env seedB).privateKey
          (generateKeyPair env seedA).publicKey ∧
    ∃ v, deriveSharedSecret env (generateKeyPair env seedA).privateKey
        (generateKeyPair env seedB).publicKey = some v ∧ v.length = 32 := by
  constructor
  · simp [deriveSharedSecret, generateKeyPair, env.b64_rt, env.boxBefore_comm]
  · refine ⟨env.boxBefore (env.keyPairBytes seedB).1 (env.keyPairBytes seedA).2, ?_, ?_⟩
    · simp [deriveSharedSecret, generateKeyPair, env.b64_rt]
    · exact env.boxBefore_len _ _

/-- C3: whenever the ciphertext/nonce/key combination does not verify (the
authenticated opening returns none: tampered ciphertext, wrong key, or
wrong nonce), decryptMessage fails with the typed authenticationFailed
error and returns no plaintext. -/
theorem c3_decrypt_auth_failure (env : CryptoEnv)
    (cipherBytes nonceBytes sharedSecret : List Nat)
    (hfail : env.secretboxOpen cipherBytes nonceBytes sharedSecret = none) :
    decryptMessage env (env.b64Encode cipherBytes) (env.b64Encode nonceBytes)
      sharedSecret = Except.error DecryptError.authenticationFailed := by
  simp [decryptMessage, env.b64_rt, hfail]

/-- Witness for C3: in the toy environment, [76, 75] is the valid encryption
of [72] under nonce [1] and key [2]; flipping its last byte to obtain
[76, 74] makes the opening fail and decryptMessage of the corresponding
base64 text surfaces the typed authentication failure. -/
theorem c3_decrypt_auth_failure_witness :
    toyEnv.secretbox [72] [1] [2] = [76, 75] ∧
    toyEnv.secretboxOpen [76, 74] [1] [2] = none ∧
    decryptMessage toyEnv (toyEnv.b64Encode [76, 74]) (toyEnv.b64Encode [1]) [2]
      = Except.error DecryptError.authenticationFailed :=
  ⟨by decide, by decide, c3_decrypt_auth_failure toyEnv [76, 74] [1] [2] (by decide)⟩

/-- C7: Keystream derivation — for every pair of byte arrays, the derived
keystream has length max(len a, len b), and its entry at every index i below
that bound is the xor of the entries of the inputs at i, missing indices
read as 0.  xorBytes is a total function, so the derivation never fails. -/
theorem c7_keystream_derivation (a b : List Nat) :
    (xorBytes a b).length = max a.length b.length ∧
    ∀ i, i < max a.length b.length →
      (xorBytes a b).getD i 0 = (a.getD i 0) ^^^ (b.getD i 0) := by
  constructor
  · simp [xorBytes]
  · intro i hi
    simp [xorBytes, List.getD_eq_getElem?_getD, List.getElem?_map,
      List.getElem?_range hi]

/-- Witness for C7 at concrete byte arrays of different lengths. -/
theorem c7_keystream_derivation_witness :
    (xorBytes [170, 1] [85]).length = max 2 1 ∧
    (1 : Nat) < max 2 1 ∧
    (xorBytes [170, 1] [85]).getD 1 0 = (1 : Nat) ^^^ 0 :=
  ⟨(c7_keystream_derivation [170, 1] [85]).1, by decide,
   (c7_keystream_derivation [170, 1] [85]).2 1 (by decide)⟩

/-- C4: Cancellation safety — a scheduled resumption of the auto encryption
loop whose captured generation differs from the current counter terminates
without writing currentStep, completedSteps, finalEncryptedText or
decryptedText and schedules nothing further; and stopVisualization
increments the generation counter, so it supersedes every run whose captured
generation was at most the counter it observed. -/
theorem c4_cancellation_safety :
    (∀ (env : CryptoEnv) (ctx : EncRunCtx) (pos : Nat × Nat) (g : GlobalState),
      ctx.myRunId ≠ g.runId →
        (encResume env ctx pos g).1.currentStep = g.currentStep ∧
        (encResume env ctx pos g).1.completedSteps = g.completedSteps ∧
        (encResume env ctx pos g).1.finalEncryptedText = g.finalEncryptedText ∧
        (encResume env ctx pos g).1.decryptedText = g.decryptedText ∧
        (encResume env ctx pos g).2 = none) ∧
    (∀ g : GlobalState, (stopVisualization g).runId = g.runId + 1) := by
  constructor
  · intro env ctx pos g hne
    have hg : ¬ g.runId = ctx.myRunId := fun h => hne h.symm
    unfold encResume
    by_cases hlen : ctx.inputText.length ≤ pos.1
    · simp [hlen, hg]
    · simp [hlen, hg]
  · intro g
    rfl

/-- Witness for C4 at a concrete stale resumption: generation 0 captured, the
counter already advanced to 1. -/
theorem c4_cancellation_safety_witness :
    (0 : Nat) ≠ 1 ∧
    ((encResume toyEnv
        { myRunId := 0, inputText := [72], sharedSecret := List.replicate 32 7,
          fullCiphertext := [99], entropy := fun _ => 0 }
        (0, 0)
        { runId := 1, isPlaying := true, currentStep := none, completedSteps := [],
          finalEncryptedText := [], decryptedText := [], showXorAnimation := false,
          showNonceCombine := false }).1.currentStep = none ∧
      (encResume toyEnv
        { myRunId := 0, inputText := [72], sharedSecret := List.replicate 32 7,
          fullCiphertext := [99], entropy := fun _ => 0 }
        (0, 0)
        { runId := 1, isPlaying := true, currentStep := none, completedSteps := [],
          finalEncryptedText := [], decryptedText := [], showXorAnimation := false,
          showNonceCombine := false }).1.completedSteps = [] ∧
      (encResume toyEnv
        { myRunId := 0, inputText := [72], sharedSecret := List.replicate 32 7,
          fullCiphertext := [99], entropy := fun _ => 0 }
        (0, 0)
        { runId := 1, isPlaying := true, currentStep := none, completedSteps := [],
          finalEncryptedText := [], decryptedText := [], showXorAnimation := false,
          showNonceCombine := false }).1.finalEncryptedText = [] ∧
      (encResume toyEnv
        { myRunId := 0, inputText := [72], sharedSecret := List.replicate 32 7,
          fullCiphertext := [99], entropy := fun _ => 0 }
        (0, 0)
        { runId := 1, isPlaying := true, currentStep := none, completedSteps := [],
          finalEncryptedText := [], decryptedText := [], showXorAnimation := false,
          showNonceCombine := false }).1.decryptedText = [] ∧
      (encResume toyEnv
        { myRunId := 0, inputText := [72], sharedSecret := List.replicate 32 7,
          fullCiphertext := [99], entropy := fun _ => 0 }
        (0, 0)
        { runId := 1, isPlaying := true, currentStep := none, completedSteps := [],
          finalEncryptedText := [], decryptedText := [], showXorAnimation := false,
          showNonceCombine := false }).2 = none) :=
  ⟨by decide,
   c4_cancellation_safety.1 toyEnv
     { myRunId := 0, inputText := [72], sharedSecret := List.replicate 32 7,
       fullCiphertext := [99], entropy := fun _ => 0 }
     (0, 0)
     { runId := 1, isPlaying := true, currentStep := none, completedSteps := [],
       finalEncryptedText := [], decryptedText := [], showXorAnimation := false,
       showNonceCombine := false }
     (by decide)⟩

lemma update_manualPrepared (ms : MState) (c s : Nat) :
    (updateCurrentStepFromManual ms c s).manualPrepared = ms.manualPrepared := by
  unfold updateCurrentStepFromManual; split_ifs <;> rfl

lemma update_manualPreviews (ms : MState) (c s : Nat) :
    (updateCurrentStepFromManual ms c s).manualPreviews = ms.manualPreviews := by
  unfold updateCurrentStepFromManual; split_ifs <;> rfl

lemma update_manualCharIndex (ms : MState) (c s : Nat) :
    (updateCurrentStepFromManual ms c s).manualCharIndex = ms.manualCharIndex := by
  unfold updateCurrentStepFromManual; split_ifs <;> rfl

lemma update_manualStageIndex (ms : MState) (c s : Nat) :
    (updateCurrentStepFromManual ms c s).manualStageIndex = ms.manualStageIndex := by
  unfold updateCurrentStepFromManual; split_ifs <;> rfl

lemma update_completedSteps (ms : MState) (c s : Nat) :
    (updateCurrentStepFromManual ms c s).completedSteps = ms.completedSteps := by
  unfold updateCurrentStepFromManual; split_ifs <;> rfl

lemma manualForwardTo_fields (ms : MState) (cIdx sIdx : Nat) :
    (manualForwardTo ms cIdx sIdx).manualPrepared = ms.manualPrepared ∧
    (manualForwardTo ms cIdx sIdx).manualPreviews = ms.manualPreviews ∧
    (manualForwardTo ms cIdx sIdx).manualCharIndex = cIdx ∧
    (manualForwardTo ms cIdx sIdx).manualStageIndex = sIdx := by
  refine ⟨?_, ?_, ?_, ?_⟩
  · simp only [manualForwardTo, apply_ite (fun st : MState => st.manualPrepared),
      update_manualPrepared, ite_self]
  · simp only [manualForwardTo, apply_ite (fun st : MState => st.manualPreviews),
      update_manualPreviews, ite_self]
  · simp only [manualForwardTo, apply_ite (fun st : MState => st.manualCharIndex),
      update_manualCharIndex, ite_self]
  · simp only [manualForwardTo, apply_ite (fun st : MState => st.manualStageIndex),
      update_manualStageIndex, ite_self]

lemma manualStepForward_pos (ms : MState) (h1 : ms.manualPrepared = true)
    (h2 : ms.manualPreviews.length ≠ 0) :
    ((manualStepForward ms).manualCharIndex, (manualStepForward ms).manualStageIndex)
      = posStep ms.manualPreviews.length (ms.manualCharIndex, ms.manualStageIndex) ∧
    (manualStepForward ms).manualPrepared = true ∧
    (manualStepForward ms).manualPreviews = ms.manualPreviews := by
  unfold manualStepForward posStep
  have hp : ¬ (ms.manualPrepared = false ∨ ms.manualPreviews.length = 0) := by
    simp [h1, h2]
  rw [if_neg hp]
  by_cases hs : ms.manualStageIndex < stagesOrder.length - 1
  · rw [if_pos hs]
    obtain ⟨f1, f2, f3, f4⟩ :=
      manualForwardTo_fields ms ms.manualCharIndex (ms.manualStageIndex + 1)
    simp [f1, f2, f3, f4, h1, hs]
  · rw [if_neg hs]
    by_cases hc : ms.manualCharIndex < ms.manualPreviews.length - 1
    · rw [if_pos hc]
      obtain ⟨f1, f2, f3, f4⟩ := manualForwardTo_fields ms (ms.manualCharIndex + 1) 0
      simp [f1, f2, f3, f4, h1, hs, hc]
    · rw [if_neg hc]
      simp [h1, hs, hc]

lemma manualStepForward_iterate (n : Nat) : ∀ ms : MState,
    ms.manualPrepared = true → ms.manualPreviews.length ≠ 0 →
    ((manualStepForward^[n] ms).manualCharIndex,
      (manualStepForward^[n] ms).manualStageIndex)
      = (posStep ms.manualPreviews.length)^[n]
          (ms.manualCharIndex, ms.manualStageIndex) ∧
    (manualStepForward^[n] ms).manualPrepared = true ∧
    (manualStepForward^[n] ms).manualPreviews = ms.manualPreviews := by
  induction n with
  | zero => intro ms h1 _; simp [h1]
  | succ n ih =>
    intro ms h1 h2
    rw [Function.iterate_succ_apply, Function.iterate_succ_apply]
    obtain ⟨hp, hprep, hprev⟩ := manualStepForward_pos ms h1 h2
    have h2s : (manualStepForward ms).manualPreviews.length ≠ 0 := by
      rw [hprev]; exact h2
    obtain ⟨ihp, ihprep, ihprev⟩ := ih (manualStepForward ms) hprep h2s
    refine ⟨?_, ihprep, by rw [ihprev, hprev]⟩
    rw [ihp, hprev, hp]

lemma posStep_stage_lt (len c s : Nat) (h : s < 4) : posStep len (c, s) = (c, s + 1) := by
  simp [posStep, stagesOrder, h]

/-- C5: Manual stepper transition rules over the fixed five-stage order:
step-forward increments the stage index within a character; at the last
stage it moves to the next character at stage 0; at the last stage of the
last character it is a no-op; step-back mirrors this and is a no-op at
character 0 stage 0; and on any prepared 3-character input, fifteen forward
steps from the initial position reach the terminal stage of character 2 and
a further forward step leaves the position unchanged. -/
theorem c5_manual_stepper_transitions :
    (∀ ms : MState, ms.manualPrepared = true → ms.manualPreviews.length ≠ 0 →
      ms.manualStageIndex < 4 →
      (manualStepForward ms).manualCharIndex = ms.manualCharIndex ∧
      (manualStepForward ms).manualStageIndex = ms.manualStageIndex + 1) ∧
    (∀ ms : MState, ms.manualPrepared = true → ms.manualPreviews.length ≠ 0 →
      ms.manualStageIndex = 4 → ms.manualCharIndex < ms.manualPreviews.length - 1 →
      (manualStepForward ms).manualCharIndex = ms.manualCharIndex + 1 ∧
      (manualStepForward ms).manualStageIndex = 0) ∧
    (∀ ms : MState, ms.manualPrepared = true → ms.manualPreviews.length ≠ 0 →
      ms.manualStageIndex = 4 → ms.manualCharIndex = ms.manualPreviews.length - 1 →
      manualStepForward ms = ms) ∧
    (∀ ms : MState, ms.manualPrepared = true → ms.manualPreviews.length ≠ 0 →
      0 < ms.manualStageIndex →
      (manualStepBack ms).manualCharIndex = ms.manualCharIndex ∧
      (manualStepBack ms).manualStageIndex = ms.manualStageIndex - 1) ∧
    (∀ ms : MState, ms.manualPrepared = true → ms.manualPreviews.length ≠ 0 →
      ms.manualStageIndex = 0 → 0 < ms.manualCharIndex →
      (manualStepBack ms).manualCharIndex = ms.manualCharIndex - 1 ∧
      (manualStepBack ms).manualStageIndex = 4) ∧
    (∀ ms : MState, ms.manualStageIndex = 0 → ms.manualCharIndex = 0 →
      manualStepBack ms = ms) ∧
    (∀ ms : MState, ms.manualPrepared = true → ms.manualPreviews.length = 3 →
      ms.manualCharIndex = 0 → ms.manualStageIndex = 0 →
      (manualStepForward^[15] ms).manualCharIndex = 2 ∧
      (manualStepForward^[15] ms).manualStageIndex = 4 ∧
      (manualStepForward (manualStepForward^[15] ms)).manualCharIndex = 2 ∧
      (manualStepForward (manualStepForward^[15] ms)).manualStageIndex = 4) := by
  refine ⟨?_, ?_, ?_, ?_, ?_, ?_, ?_⟩
  · intro ms h1 h2 hs
    have h := (manualStepForward_pos ms h1 h2).1
    rw [posStep_stage_lt _ _ _ hs] at h
    exact ⟨congrArg Prod.fst h, congrArg Prod.snd h⟩
  · intro ms h1 h2 hs hc
    have h := (manualStepForward_pos ms h1 h2).1
    have hv : posStep ms.manualPreviews.length
        (ms.manualCharIndex, ms.manualStageIndex) = (ms.manualCharIndex + 1, 0) := by
      simp [posStep, stagesOrder, hs, hc]
    rw [hv] at h
    exact ⟨congrArg Prod.fst h, congrArg Prod.snd h⟩
  · intro ms h1 h2 hs hc
    unfold manualStepForward
    have g1 : ¬ (ms.manualPrepared = false ∨ ms.manualPreviews.length = 0) := by
      simp [h1, h2]
    have g2 : ¬ ms.manualStageIndex < stagesOrder.length - 1 := by
      simp [stagesOrder, hs]
    have g3 : ¬ ms.manualCharIndex < ms.manualPreviews.length - 1 := by
      simp [hc]
    rw [if_neg g1, if_neg g2, if_neg g3]
  · intro ms h1 h2 hs
    have g1 : ¬ (ms.manualPrepared = false ∨ ms.manualPreviews.length = 0) := by
      simp [h1, h2]
    simp only [manualStepBack]
    rw [if_neg g1, if_pos hs]
    rw [update_manualCharIndex, update_manualStageIndex]
    exact ⟨rfl, rfl⟩
  · intro ms h1 h2 hs hc
    have g1 : ¬ (ms.manualPrepared = false ∨ ms.manualPreviews.length = 0) := by
      simp [h1, h2]
    have g2 : ¬ 0 < ms.manualStageIndex := by simp [hs]
    simp only [manualStepBack]
    rw [if_neg g1, if_neg g2, if_pos hc]
    rw [update_manualCharIndex, update_manualStageIndex]
    exact ⟨rfl, rfl⟩
  · intro ms hs hc
    unfold manualStepBack
    split_ifs with g1 g2 g3
    · rfl
    · exact absurd g2 (by simp [hs])
    · exact absurd g3 (by simp [hc])
    · rfl
  · intro ms h1 hlen hc hs
    have h2 : ms.manualPreviews.length ≠ 0 := by simp [hlen]
    obtain ⟨hp, hprep, hprev⟩ := manualStepForward_iterate 15 ms h1 h2
    rw [hlen, hc, hs] at hp
    have hval : (posStep 3)^[15] (0, 0) = (2, 4) := by decide
    rw [hval] at hp
    have e1 : (manualStepForward^[15] ms).manualCharIndex = 2 := congrArg Prod.fst hp
    have e2 : (manualStepForward^[15] ms).manualStageIndex = 4 := congrArg Prod.snd hp
    have h2s : (manualStepForward^[15] ms).manualPreviews.length ≠ 0 := by
      rw [hprev, hlen]; simp
    obtain ⟨hp2, _, _⟩ := manualStepForward_pos (manualStepForward^[15] ms) hprep h2s
    rw [hprev, hlen, e1, e2] at hp2
    have hfix : posStep 3 (2, 4) = (2, 4) := by decide
    rw [hfix] at hp2
    exact ⟨e1, e2, congrArg Prod.fst hp2, congrArg Prod.snd hp2⟩

/-- Witness for C5: the forward no-op rule and the 3-character scenario at a
concrete prepared state. -/
theorem c5_manual_stepper_transitions_witness :
    (manualStepForward^[15]
      { manualPrepared := true, manualPreviews := [default, default, default],
        manualCharIndex := 0, manualStageIndex := 0, currentStep := none,
        completedSteps := [], showXorAnimation := false,
        showNonceCombine := false }).manualCharIndex = 2 ∧
    (manualStepForward^[15]
      { manualPrepared := true, manualPreviews := [default, default, default],
        manualCharIndex := 0, manualStageIndex := 0, currentStep := none,
        completedSteps := [], showXorAnimation := false,
        showNonceCombine := false }).manualStageIndex = 4 ∧
    (manualStepForward (manualStepForward^[15]
      { manualPrepared := true, manualPreviews := [default, default, default],
        manualCharIndex := 0, manualStageIndex := 0, currentStep := none,
        completedSteps := [], showXorAnimation := false,
        showNonceCombine := false })).manualCharIndex = 2 ∧
    (manualStepForward (manualStepForward^[15]
      { manualPrepared := true, manualPreviews := [default, default, default],
        manualCharIndex := 0, manualStageIndex := 0, currentStep := none,
        completedSteps := [], showXorAnimation := false,
        showNonceCombine := false })).manualStageIndex = 4 :=
  c5_manual_stepper_transitions.2.2.2.2.2.2
    { manualPrepared := true, manualPreviews := [default, default, default],
      manualCharIndex := 0, manualStageIndex := 0, currentStep := none,
      completedSteps := [], showXorAnimation := false, showNonceCombine := false }
    rfl (by decide) rfl rfl

lemma manualForwardTo_completedSteps (ms : MState) (cIdx sIdx : Nat) :
    (manualForwardTo ms cIdx sIdx).completedSteps = ms.completedSteps ∨
    ((manualForwardTo ms cIdx sIdx).completedSteps
        = ms.completedSteps ++
          [{ ms.manualPreviews.getD cIdx default with
               stage := Stage.encrypted, stageLabel := "Completed" }] ∧
      ms.completedSteps.any
        (fun p => p.charIndex == (ms.manualPreviews.getD cIdx default).charIndex)
        = false) := by
  simp only [manualForwardTo, update_completedSteps]
  split_ifs with h1 h2
  · left; exact update_completedSteps _ _ _
  · right
    constructor
    · rfl
    · rw [Bool.not_eq_true] at h2
      exact h2
  · left; exact update_completedSteps _ _ _

/-- C6: Completion idempotence — the completed list keeps at most one entry
per character index.  Manual stepping preserves distinctness of the stored
character indexes and, when the terminal stage is re-entered for a character
already in the list, leaves the list unchanged; one resumption of the auto
encryption loop preserves the run invariant that the stored indexes are
distinct and below the current character position. -/
theorem c6_completion_idempotence :
    (∀ ms : MState, (ms.completedSteps.map VStep.charIndex).Nodup →
      ((manualStepForward ms).completedSteps.map VStep.charIndex).Nodup) ∧
    (∀ ms : MState, ms.manualPrepared = true → ms.manualPreviews.length ≠ 0 →
      ms.manualStageIndex = 3 →
      (ms.manualPreviews.getD ms.manualCharIndex default).charIndex
        ∈ ms.completedSteps.map VStep.charIndex →
      (manualStepForward ms).completedSteps = ms.completedSteps) ∧
    (∀ (env : CryptoEnv) (ctx : EncRunCtx) (pos : Nat × Nat) (g : GlobalState),
      (g.completedSteps.map VStep.charIndex).Nodup →
      (∀ x ∈ g.completedSteps.map VStep.charIndex, x < pos.1) →
      ((encResume env ctx pos g).1.completedSteps.map VStep.charIndex).Nodup ∧
      ∀ pos', (encResume env ctx pos g).2 = some pos' →
        ∀ x ∈ (encResume env ctx pos g).1.completedSteps.map VStep.charIndex,
          x < pos'.1) := by
  refine ⟨?_, ?_, ?_⟩
  · intro ms hnd
    unfold manualStepForward
    split_ifs with g1 g2 g3
    · exact hnd
    · rcases manualForwardTo_completedSteps ms ms.manualCharIndex
        (ms.manualStageIndex + 1) with h | ⟨h, hany⟩
      · rw [h]; exact hnd
      · rw [h, List.map_append]
        rw [List.any_eq_false] at hany
        simp only [List.map_cons, List.map_nil]
        rw [List.nodup_append]
        refine ⟨hnd, List.nodup_singleton _, ?_⟩
        intro x hx hx1
        simp only [List.mem_singleton] at hx1
        obtain ⟨p, hp, hpx⟩ := List.mem_map.mp hx
        exact hany p hp (by rw [hpx, hx1]; simp)
    · rcases manualForwardTo_completedSteps ms (ms.manualCharIndex + 1) 0
        with h | ⟨h, hany⟩
      · rw [h]; exact hnd
      · rw [h, List.map_append]
        rw [List.any_eq_false] at hany
        simp only [List.map_cons, List.map_nil]
        rw [List.nodup_append]
        refine ⟨hnd, List.nodup_singleton _, ?_⟩
        intro x hx hx1
        simp only [List.mem_singleton] at hx1
        obtain ⟨p, hp, hpx⟩ := List.mem_map.mp hx
        exact hany p hp (by rw [hpx, hx1]; simp)
    · exact hnd
  · intro ms h1 h2 hs hmem
    have g1 : ¬ (ms.manualPrepared = false ∨ ms.manualPreviews.length = 0) := by
      simp [h1, h2]
    have g2 : ms.manualStageIndex < stagesOrder.length - 1 := by
      simp [stagesOrder, hs]
    unfold manualStepForward
    rw [if_neg g1, if_pos g2, hs]
    have hany : (ms.completedSteps.any
        (fun p => p.charIndex ==
          (ms.manualPreviews.getD ms.manualCharIndex default).charIndex)) = true := by
      rw [List.any_eq_true]
      obtain ⟨p, hp, he⟩ := List.mem_map.mp hmem
      exact ⟨p, hp, by simp [he]⟩
    simp only [manualForwardTo, update_completedSteps]
    have hst : stagesOrder.getD (3 + 1) Stage.original = Stage.encrypted := rfl
    rw [if_pos hst, if_pos hany]
    exact update_completedSteps _ _ _
  · intro env ctx pos g hnd hlt
    unfold encResume
    split_ifs with h1 h2 h3 h4
    · exact ⟨hnd, by intro pos' h; simp at h⟩
    · exact ⟨hnd, by intro pos' h; simp at h⟩
    · refine ⟨hnd, ?_⟩
      intro pos' h
      simp only [Option.some.injEq] at h
      subst h
      exact hlt
    · have hidx : (autoCompletedRecord env ctx.sharedSecret pos.1
          (ctx.inputText.getD pos.1 0) (ctx.entropy pos.1)).charIndex = pos.1 := rfl
      constructor
      · simp only [List.map_append, List.map_cons, List.map_nil, hidx]
        rw [List.nodup_append]
        refine ⟨hnd, List.nodup_singleton _, ?_⟩
        intro x hx hx1
        simp only [List.mem_singleton] at hx1
        subst hx1
        exact absurd (hlt _ hx) (lt_irrefl _)
      · intro pos' h
        simp only [Option.some.injEq] at h
        subst h
        intro x hx
        simp only [List.map_append, List.map_cons, List.map_nil, hidx,
          List.mem_append, List.mem_singleton] at hx
        rcases hx with hx | hx
        · exact Nat.lt_succ_of_lt (hlt _ hx)
        · subst hx; exact Nat.lt_succ_self _
    · exact ⟨hnd, by intro pos' h; simp at h⟩

/-- Witness for C6: the three conjuncts at concrete states — a forward step
from an empty completed list, a forward step into the terminal stage of a
character already in the list, and a completion resumption of the auto
loop from an empty completed list. -/
theorem c6_completion_idempotence_witness :
    ((manualStepForward
      { manualPrepared := true, manualPreviews := [default],
        manualCharIndex := 0, manualStageIndex := 3, currentStep := none,
        completedSteps := [], showXorAnimation := false,
        showNonceCombine := false }).completedSteps.map VStep.charIndex).Nodup ∧
    (manualStepForward
      { manualPrepared := true, manualPreviews := [default],
        manualCharIndex := 0, manualStageIndex := 3, currentStep := none,
        completedSteps := [default], showXorAnimation := false,
        showNonceCombine := false }).completedSteps = [default] ∧
    ((encResume toyEnv
      { myRunId := 0, inputText := [72], sharedSecret := List.replicate 32 7,
        fullCiphertext := [99], entropy := fun _ => 0 }
      (0, 5)
      { runId := 0, isPlaying := true, currentStep := none, completedSteps := [],
        finalEncryptedText := [], decryptedText := [], showXorAnimation := false,
        showNonceCombine := false }).1.completedSteps.map VStep.charIndex).Nodup :=
  ⟨c6_completion_idempotence.1
     { manualPrepared := true, manualPreviews := [default],
       manualCharIndex := 0, manualStageIndex := 3, currentStep := none,
       completedSteps := [], showXorAnimation := false, showNonceCombine := false }
     (by decide),
   c6_completion_idempotence.2.1
     { manualPrepared := true, manualPreviews := [default],
       manualCharIndex := 0, manualStageIndex := 3, currentStep := none,
       completedSteps := [default], showXorAnimation := false,
       showNonceCombine := false }
     rfl (by decide) rfl (by decide),
   (c6_completion_idempotence.2.2 toyEnv
     { myRunId := 0, inputText := [72], sharedSecret := List.replicate 32 7,
       fullCiphertext := [99], entropy := fun _ => 0 }
     (0, 5)
     { runId := 0, isPlaying := true, currentStep := none, completedSteps := [],
       finalEncryptedText := [], decryptedText := [], showXorAnimation := false,
       showNonceCombine := false }
     (by decide) (by decide)).1⟩

lemma getD_map_range {α : Type} (f : Nat → α) (len i : Nat) (h : i < len) (d : α) :
    ((List.range len).map f).getD i d = f i := by
  rw [List.getD_eq_getElem?_getD, List.getElem?_map, List.getElem?_range h]
  rfl

/-- C8: Auto/Manual equivalence — for the same run data (shared secret,
input text, per-character entropy) and the same (charIndex, stageIndex)
position, the record the auto encryption driver publishes as the current
step is byte-identical to the record the manual stepper publishes, the
manual previews having been prepared from that same run data. -/
theorem c8_auto_manual_equivalence (env : CryptoEnv) (ctx : EncRunCtx)
    (g : GlobalState) (ms : MState) (i j : Nat)
    (hi : i < ctx.inputText.length) (hj : j < 5) (hrun : g.runId = ctx.myRunId)
    (hprev : ms.manualPreviews = (List.range ctx.inputText.length).map
      (fun idx => manualPreviewRecord env ctx.sharedSecret idx
        (ctx.inputText.getD idx 0) (ctx.entropy idx))) :
    (encResume env ctx (i, j) g).1.currentStep
      = (updateCurrentStepFromManual ms i j).currentStep := by
  have hlen0 : ¬ ms.manualPreviews.length = 0 := by
    rw [hprev]
    simp only [List.length_map, List.length_range]
    omega
  unfold encResume updateCurrentStepFromManual
  rw [if_neg (Nat.not_le.mpr hi), if_pos hrun, if_pos hj, if_neg hlen0]
  rw [hprev, getD_map_range _ _ _ hi]
  interval_cases j <;> rfl

/-- Witness for C8 at a concrete position of a concrete two-character run in
the toy environment. -/
theorem c8_auto_manual_equivalence_witness :
    (encResume toyEnv
      { myRunId := 0, inputText := [72, 105], sharedSecret := List.replicate 32 7,
        fullCiphertext := [99], entropy := fun i => i }
      (0, 2)
      { runId := 0, isPlaying := true, currentStep := none, completedSteps := [],
        finalEncryptedText := [], decryptedText := [], showXorAnimation := false,
        showNonceCombine := false }).1.currentStep
      = (updateCurrentStepFromManual
          { manualPrepared := true,
            manualPreviews := (List.range ([72, 105] : List Nat).length).map
              (fun idx => manualPreviewRecord toyEnv (List.replicate 32 7) idx
                (([72, 105] : List Nat).getD idx 0) ((fun i => i) idx)),
            manualCharIndex := 0, manualStageIndex := 0, currentStep := none,
            completedSteps := [], showXorAnimation := false,
            showNonceCombine := false }
          0 2).currentStep :=
  c8_auto_manual_equivalence toyEnv
    { myRunId := 0, inputText := [72, 105], sharedSecret := List.replicate 32 7,
      fullCiphertext := [99], entropy := fun i => i }
    { runId := 0, isPlaying := true, currentStep := none, completedSteps := [],
      finalEncryptedText := [], decryptedText := [], showXorAnimation := false,
      showNonceCombine := false }
    { manualPrepared := true,
      manualPreviews := (List.range ([72, 105] : List Nat).length).map
        (fun idx => manualPreviewRecord toyEnv (List.replicate 32 7) idx
          (([72, 105] : List Nat).getD idx 0) ((fun i => i) idx)),
      manualCharIndex := 0, manualStageIndex := 0, currentStep := none,
      completedSteps := [], showXorAnimation := false, showNonceCombine := false }
    0 2 (by decide) (by decide) rfl rfl

/-- C9: during decryption visualization, the per-character display records
are computed by freshly re-encrypting the recovered character with
encryptMessage under the run entropy stream, not derived from the
user-supplied input ciphertext: two runs with the same keys, seeds and
entropy that recover the same text produce identical records whatever
envelopes were supplied; the encrypted preview and ciphertext bytes of each
record come from encryptMessage applied to the recovered character; and the
record list is exactly the per-character layout over the recovered text. -/
theorem c9_decryption_preview_reencrypts :
    (∀ (env : CryptoEnv) (e1 n1 e2 n2 alice bob : List Nat) (sA sB : Nat)
        (ent : Nat → Nat),
      runOk (visualizeDecryptionRun env e1 n1 alice bob sA sB ent) = true →
      runOk (visualizeDecryptionRun env e2 n2 alice bob sA sB ent) = true →
      runText (visualizeDecryptionRun env e1 n1 alice bob sA sB ent)
        = runText (visualizeDecryptionRun env e2 n2 alice bob sA sB ent) →
      runRecords (visualizeDecryptionRun env e1 n1 alice bob sA sB ent)
        = runRecords (visualizeDecryptionRun env e2 n2 alice bob sA sB ent)) ∧
    (∀ (env : CryptoEnv) (sharedSecret : List Nat) (i char entropy : Nat)
        (stage : Stage) (label : String),
      (decStepRecord env sharedSecret i char entropy stage label).encrypted
        = (encryptMessage env [char] sharedSecret entropy).1.take 16 ++ dots ∧
      (decStepRecord env sharedSecret i char entropy stage label).ciphertextBytes
        = base64ToBytes env (encryptMessage env [char] sharedSecret entropy).1) ∧
    (∀ (env : CryptoEnv) (e n alice bob : List Nat) (sA sB : Nat) (ent : Nat → Nat),
      runRecords (visualizeDecryptionRun env e n alice bob sA sB ent)
        = (List.range
            (runText (visualizeDecryptionRun env e n alice bob sA sB ent)).length).flatMap
            (fun i => decStages.map (fun sl => decStepRecord env
              ((visualizeDecryptionRun env e n alice bob sA sB ent).1.getD []) i
              ((runText (visualizeDecryptionRun env e n alice bob sA sB ent)).getD i 0)
              (ent i) sl.1 sl.2))) := by
  refine ⟨?_, ?_, ?_⟩
  · intro env e1 n1 e2 n2 alice bob sA sB ent h1 h2 ht
    cases hS : visualizeDecryptionSecret env alice bob sA sB with
    | none =>
      simp [visualizeDecryptionRun, hS, runOk] at h1
    | some s =>
      simp only [visualizeDecryptionRun, hS] at h1 h2 ht ⊢
      cases hd1 : decryptMessage env e1 n1 s with
      | error err => simp [hd1, runOk] at h1
      | ok t1 =>
        cases hd2 : decryptMessage env e2 n2 s with
        | error err => simp [hd2, runOk] at h2
        | ok t2 =>
          simp only [hd1, hd2, runText] at ht
          simp only [hd1, hd2, runRecords, ht]
  · intro env sharedSecret i char entropy stage label
    exact ⟨rfl, rfl⟩
  · intro env e n alice bob sA sB ent
    cases hS : visualizeDecryptionSecret env alice bob sA sB with
    | none =>
      simp [visualizeDecryptionRun, hS, runRecords, runText]
    | some s =>
      cases hd : decryptMessage env e n s with
      | error err =>
        simp [visualizeDecryptionRun, hS, hd, runRecords, runText]
      | ok t =>
        simp [visualizeDecryptionRun, hS, hd, runRecords, runText]

/-- Witness for C9: two distinct envelopes that decrypt to the same text
under the same fresh-pair secret in the toy environment yield identical
display records. -/
theorem c9_decryption_preview_reencrypts_witness :
    ([84, 67] : List Nat) ≠ [86, 69] ∧
    runRecords (visualizeDecryptionRun toyEnv [84, 67] [2] [] [] 1 2 (fun i => i))
      = runRecords (visualizeDecryptionRun toyEnv [86, 69] [4] [] [] 1 2 (fun i => i)) :=
  ⟨by decide,
   c9_decryption_preview_reencrypts.1 toyEnv [84, 67] [2] [86, 69] [4] [] [] 1 2
     (fun i => i) (by decide) (by decide) (by decide)⟩

/-- C10: when no prior encryption run has stored key material (both the
stored Alice private key and Bob public key are the empty string), the
decryption visualization derives its shared secret from two freshly
generated key pairs, and the secret it uses is independent of the
user-supplied encrypted text and nonce. -/
theorem c10_decryption_fresh_secret :
    (∀ (env : CryptoEnv) (sA sB : Nat),
      visualizeDecryptionSecret env [] [] sA sB
        = deriveSharedSecret env (generateKeyPair env sA).privateKey
            (generateKeyPair env sB).publicKey) ∧
    (∀ (env : CryptoEnv) (e1 n1 e2 n2 : List Nat) (sA sB : Nat) (ent : Nat → Nat),
      (visualizeDecryptionRun env e1 n1 [] [] sA sB ent).1
        = (visualizeDecryptionRun env e2 n2 [] [] sA sB ent).1) := by
  constructor
  · intro env sA sB
    simp [visualizeDecryptionSecret]
  · intro env e1 n1 e2 n2 sA sB ent
    cases hS : visualizeDecryptionSecret env [] [] sA sB with
    | none => simp [visualizeDecryptionRun, hS]
    | some s =>
      simp only [visualizeDecryptionRun, hS]
      cases hd1 : decryptMessage env e1 n1 s <;>
        cases hd2 : decryptMessage env e2 n2 s <;> simp
